import Mathlib

/-!
Verification of the notification-state reconciler of
`gitlab-matrix-merge-request-notifier` (src/gitlab-matrix-notifier.py),
as a shallow embedding in Lean 4.

The tracker (GitLab server) is modelled as a list of merge-request
records (`World`); each HTTP query of the source is a function of the
world, following the documented semantics of its query parameters
(`state`, `labels`, `iids[]` filters).  The notified-set store is an
inductive `StoreState`; Python exceptions become explicit error values.
The polling loop's cycle body (the `try` block of `main`) is embedded as
`runCycle`, parameterised by an `Oracle` saying which fallible operation
(fetch, store write, message send) succeeds, and producing the trace of
externally visible `Event`s (notifications delivered, store saves).
-/

namespace GitlabMatrixNotifier

/-- State of a merge request as reported by the GitLab API. -/
inductive MrState
| opened
| closed
| merged
deriving DecidableEq, Repr

/-- One merge-request record as returned by the tracker API
(fields `iid`, `title`, `web_url`, `state`, `labels` used by the source). -/
structure MergeRequest where
  iid : Nat
  title : String
  web_url : String
  state : MrState
  labels : List String
deriving DecidableEq, Repr

/-- The tracker's merge-request list: the server-side contents all
HTTP queries of the source are answered from. -/
abbrev World := List MergeRequest

/-- The label the source filters on (the literal string in the code). -/
def readyLabel : String := "review:ready"

/-- Embeds `get_all_open_mrs`: the query with parameter `state=opened`
returns the open merge requests. -/
def get_all_open_mrs (w : World) : List MergeRequest :=
  w.filter fun mr => decide (mr.state = MrState.opened)

/-- Embeds `get_mrs_without_ready_label`: iids of open merge requests
whose labels do not contain `review:ready`. -/
def get_mrs_without_ready_label (w : World) : Finset Nat :=
  (((get_all_open_mrs w).filter fun mr =>
      decide (readyLabel ∉ mr.labels)).map MergeRequest.iid).toFinset

/-- Embeds `get_closed_mrs`: iids answered by the query with
parameter `state=closed`. -/
def get_closed_mrs (w : World) : Finset Nat :=
  ((w.filter fun mr => decide (mr.state = MrState.closed)).map
      MergeRequest.iid).toFinset

/-- The HTTP query of `get_merged_mrs`.  With a nonempty set the
`iids[]` filter makes the server return the merge requests whose iid is
in it; with an empty set the `requests` parameter encoder drops the
empty `iids[]` key entirely, so the query is unfiltered (`state`
defaults to all) and the server returns every merge request. -/
def fetchByIids (w : World) (iids : Finset Nat) : List MergeRequest :=
  if iids = ∅ then w
  else w.filter fun mr => decide (mr.iid ∈ iids)

/-- Embeds `get_merged_mrs`: among the merge requests fetched by the
`iids[]` filter, keep those whose state is `merged`. -/
def get_merged_mrs (w : World) (iids : Finset Nat) : Finset Nat :=
  (((fetchByIids w iids).filter fun mr =>
      decide (mr.state = MrState.merged)).map MergeRequest.iid).toFinset

/-- Embeds `clean_notified_mrs`: fetch closed, merged-among-notified and
open-unready iids, and subtract their union from the notified set. -/
def clean_notified_mrs (w : World) (notified : Finset Nat) : Finset Nat :=
  let closed_mrs := get_closed_mrs w
  let merged_mrs := get_merged_mrs w notified
  let unready_mrs := get_mrs_without_ready_label w
  let to_clean := closed_mrs ∪ unready_mrs ∪ merged_mrs
  notified \ to_clean

/-- The persisted store file `notified_mrs.json` as the loader can find
it: absent, unreadable, unparsable, or holding a JSON list of iids. -/
inductive StoreState
| missing
| denied
| corrupt
| content (l : List Nat)
deriving DecidableEq, Repr

/-- A read failure surfaced by `load_notified_mrs` (a Python exception
other than `FileNotFoundError`). -/
inductive ReadError
| permissionDenied
| corruptData
deriving DecidableEq, Repr

/-- Embeds `load_notified_mrs`: only `FileNotFoundError` is caught and
turned into the empty set; other failures propagate. -/
def load_notified_mrs : StoreState → Except ReadError (Finset Nat)
| StoreState.missing => Except.ok ∅
| StoreState.denied => Except.error ReadError.permissionDenied
| StoreState.corrupt => Except.error ReadError.corruptData
| StoreState.content l => Except.ok l.toFinset

/-- Embeds `save_notified_mrs`: the set is written as a JSON list
(`json.dump(list(notified_mrs), f)`), overwriting the file; the order
Python enumerates the set in is immaterial, so we fix the sorted one. -/
def save_notified_mrs (s : Finset Nat) : StoreState :=
  StoreState.content (s.sort (· ≤ ·))

/-- Whether opening and reading the store raises in Python:
true for a missing, unreadable or unparsable file. -/
def StoreState.readFails : StoreState → Bool
| StoreState.content _ => false
| _ => true

/-- An externally visible effect of a cycle: a notification delivered to
the Matrix room for an iid, or a store write of a set of iids. -/
inductive Event
| notify (iid : Nat)
| save (s : Finset Nat)
deriving DecidableEq

/-- Execution state of the notify phase of one cycle: the in-memory
Python variable `notified_mrs` (`mem`), the last successfully written
store contents (`durable`), the trace so far, and whether an exception
has aborted the remainder of the `try` block. -/
structure NState where
  mem : Finset Nat
  durable : Finset Nat
  events : List Event
  aborted : Bool
deriving DecidableEq

/-- Which fallible operations of a cycle succeed: the three fetches of
`clean_notified_mrs` (in the order the code performs them), the save
after cleanup, the open-MRs fetch of the notify phase, and per-iid the
message send and the save recording the notification. -/
structure Oracle where
  fetchClosedOk : Bool
  fetchMergedOk : Bool
  fetchUnreadyOk : Bool
  saveCleanOk : Bool
  fetchOpenOk : Bool
  sendOk : Nat → Bool
  saveOk : Nat → Bool

/-- The oracle of a cycle in which every operation succeeds. -/
def Oracle.allOk : Oracle :=
  ⟨true, true, true, true, true, fun _ => true, fun _ => true⟩

/-- The snapshots the notify phase iterates over: open merge requests
carrying the ready label, in the order the tracker returned them
(`ready_mrs` in `main`). -/
def ready_mrs (w : World) : List MergeRequest :=
  (get_all_open_mrs w).filter fun mr => decide (readyLabel ∈ mr.labels)

/-- One iteration of the notify loop of `main` for one snapshot:
if the iid is not yet notified, send the message, add the iid to the
in-memory set, then save; a failed send or save raises, aborting the
rest of the cycle (the add having already happened on a failed save). -/
def notifyStep (o : Oracle) (st : NState) (mr : MergeRequest) : NState :=
  if st.aborted then st
  else if mr.iid ∈ st.mem then st
  else if o.sendOk mr.iid = false then ⟨st.mem, st.durable, st.events, true⟩
  else
    let newMem := insert mr.iid st.mem
    if o.saveOk mr.iid then
      ⟨newMem, newMem, st.events ++ [Event.notify mr.iid, Event.save newMem],
        false⟩
    else
      ⟨newMem, st.durable, st.events ++ [Event.notify mr.iid], true⟩

/-- Outcome of one cycle: the in-memory set, the durable store contents,
the trace of events, and whether the `try` block completed without an
exception. -/
structure CycleResult where
  mem : Finset Nat
  durable : Finset Nat
  events : List Event
  ok : Bool
deriving DecidableEq

/-- Embeds the body of the `while True` loop of `main` (its `try`
block): cleanup (three fetches, then reassignment and save), then the
notify phase over the open-ready snapshots.  A raised exception leaves
the in-memory and durable sets exactly as they were at the raise
point. -/
def runCycle (w : World) (o : Oracle) (mem0 durable0 : Finset Nat) :
    CycleResult :=
  if o.fetchClosedOk = false then ⟨mem0, durable0, [], false⟩
  else if o.fetchMergedOk = false then ⟨mem0, durable0, [], false⟩
  else if o.fetchUnreadyOk = false then ⟨mem0, durable0, [], false⟩
  else
    let cleaned := clean_notified_mrs w mem0
    if o.saveCleanOk = false then ⟨cleaned, durable0, [], false⟩
    else if o.fetchOpenOk = false then
      ⟨cleaned, cleaned, [Event.save cleaned], false⟩
    else
      let fin := (ready_mrs w).foldl (notifyStep o)
        ⟨cleaned, cleaned, [Event.save cleaned], false⟩
      ⟨fin.mem, fin.durable, fin.events, !fin.aborted⟩

/-- The default poll interval of the source (`CHECK_INTERVAL`). -/
def CHECK_INTERVAL : Nat := 300

/-- One iteration of the `while True` loop: run the cycle, then sleep
the normal interval on success and 60 seconds on a caught exception
(the `except` clause); the loop itself never terminates. -/
def loopIter (w : World) (o : Oracle) (mem0 durable0 : Finset Nat) :
    CycleResult × Nat :=
  let r := runCycle w o mem0 durable0
  (r, if r.ok then CHECK_INTERVAL else 60)

/-- The three Matrix environment variables `main` checks: `none` models
an unset variable, `some ""` a set-but-empty one. -/
structure Config where
  username : Option String
  password : Option String
  room_id : Option String

/-- Python truthiness of an optional string: `None` and the empty
string are falsy. -/
def truthy : Option String → Bool
| none => false
| some s => !s.isEmpty

/-- A startup action of `main` before the polling loop: constructing
and logging in the Matrix client (network), and loading the notified
set from the store. -/
inductive StartEvent
| matrixConnect
| matrixLogin
| storeLoad
deriving DecidableEq, Repr

/-- Embeds the prelude of `main` (before the `while True` loop): the
config check raises `ValueError` first; only past it do the Matrix
client setup, login and store load happen, in that order.  Returns the
startup actions performed and the raised error, if any. -/
def mainStart (cfg : Config) : List StartEvent × Option String :=
  if (truthy cfg.username && truthy cfg.password && truthy cfg.room_id)
      = false then
    ([], some "Missing required environment variables")
  else
    ([StartEvent.matrixConnect, StartEvent.matrixLogin,
      StartEvent.storeLoad], none)

/-- The iids of the open-ready snapshots of a cycle, as a set. -/
def readyIids (w : World) : Finset Nat :=
  ((ready_mrs w).map MergeRequest.iid).toFinset

/-- A trace in which every delivered notification is immediately
followed by a store save recording the notified iid. -/
def SavedImmediately (evs : List Event) : Prop :=
  ∀ k i, evs.get? k = some (Event.notify i) →
    ∃ T, evs.get? (k + 1) = some (Event.save T) ∧ i ∈ T

/-- A world with a single open merge request labelled ready, with the
given iid, title and url. -/
def singleReadyWorld (i : Nat) (t u : String) : World :=
  [⟨i, t, u, MrState.opened, [readyLabel]⟩]

/-- An oracle in which only the store write recording the given iid
fails. -/
def oracleFailSaveOf (i : Nat) : Oracle :=
  ⟨true, true, true, true, true, fun _ => true, fun j => !(j == i)⟩

/-- A world with a single open merge request labelled ready. -/
def exWorldReady : World :=
  singleReadyWorld 42 "Add feature" "https://git.example/mr/42"

/-- A world with a single closed merge request. -/
def exWorldClosed : World :=
  [⟨42, "Add feature", "https://git.example/mr/42", MrState.closed, []⟩]

/-- A world with a single already-merged merge request. -/
def exWorldMerged : World :=
  [⟨42, "Old work", "https://git.example/mr/42", MrState.merged, []⟩]

/-- A world with one open-ready merge request and one closed one. -/
def exWorldMixed : World :=
  [⟨1, "A", "https://git.example/mr/1", MrState.opened, [readyLabel]⟩,
   ⟨2, "B", "https://git.example/mr/2", MrState.closed, []⟩]

/-- An oracle in which only the store write recording iid 42 fails. -/
def oracleFailSave42 : Oracle :=
  oracleFailSaveOf 42

/-- An oracle in which only the open-MRs fetch of the notify phase
fails. -/
def oracleFailOpenFetch : Oracle :=
  ⟨true, true, true, true, false, fun _ => true, fun _ => true⟩

/-- An oracle in which the closed-MRs fetch fails at the start of
cleanup. -/
def oracleFailClosedFetch : Oracle :=
  ⟨false, true, true, true, true, fun _ => true, fun _ => true⟩

/-- Membership in the closed-MRs fetch result, read off the record
list. -/
theorem mem_get_closed {w : World} {i : Nat} :
    i ∈ get_closed_mrs w ↔
      ∃ mr ∈ w, mr.state = MrState.closed ∧ mr.iid = i := by
  simp only [get_closed_mrs, List.mem_toFinset, List.mem_map,
    List.mem_filter, decide_eq_true_eq]
  tauto

/-- Membership in the open-unready fetch result, read off the record
list. -/
theorem mem_get_unready {w : World} {i : Nat} :
    i ∈ get_mrs_without_ready_label w ↔
      ∃ mr ∈ w, mr.state = MrState.opened ∧ readyLabel ∉ mr.labels ∧
        mr.iid = i := by
  simp only [get_mrs_without_ready_label, get_all_open_mrs,
    List.mem_toFinset, List.mem_map, List.mem_filter, decide_eq_true_eq]
  tauto

/-- Membership in the merged-among fetch result for a nonempty queried
set (the `iids[]` filter is actually sent): the iid has to be in the
queried set. -/
theorem mem_get_merged_of_ne {w : World} {T : Finset Nat}
    (hT : T ≠ ∅) {i : Nat} :
    i ∈ get_merged_mrs w T ↔
      i ∈ T ∧ ∃ mr ∈ w, mr.state = MrState.merged ∧ mr.iid = i := by
  simp only [get_merged_mrs, fetchByIids, if_neg hT, List.mem_toFinset,
    List.mem_map, List.mem_filter, decide_eq_true_eq]
  constructor
  · rintro ⟨mr, ⟨⟨hw, hT2⟩, hst⟩, rfl⟩
    exact ⟨hT2, mr, hw, hst, rfl⟩
  · rintro ⟨hT2, mr, hw, hst, rfl⟩
    exact ⟨mr, ⟨⟨hw, hT2⟩, hst⟩, rfl⟩

/-- The merged-among fetch with an empty queried set: the dropped
`iids[]` parameter makes the query unfiltered, so every merged merge
request of the project is returned. -/
theorem get_merged_mrs_empty {w : World} {i : Nat} :
    i ∈ get_merged_mrs w ∅ ↔
      ∃ mr ∈ w, mr.state = MrState.merged ∧ mr.iid = i := by
  simp only [get_merged_mrs, fetchByIids, if_pos rfl, List.mem_toFinset,
    List.mem_map, List.mem_filter, decide_eq_true_eq]
  tauto

/-- Membership in the set of open-ready snapshot iids, read off the
record list. -/
theorem mem_readyIids {w : World} {i : Nat} :
    i ∈ readyIids w ↔
      ∃ mr ∈ w, mr.state = MrState.opened ∧ readyLabel ∈ mr.labels ∧
        mr.iid = i := by
  simp only [readyIids, ready_mrs, get_all_open_mrs, List.mem_toFinset,
    List.mem_map, List.mem_filter, decide_eq_true_eq]
  tauto

/-- C5: round-trip persistence: loading immediately after saving any
finite set of identifiers, the empty set included, returns exactly that
set. -/
theorem load_after_save_roundtrip (S : Finset Nat) :
    load_notified_mrs (save_notified_mrs S) = Except.ok S := by
  simp [load_notified_mrs, save_notified_mrs, Finset.sort_toFinset]

/-- C4: among store reads that raise in Python (missing, unreadable or
unparsable file), only the missing-file case is converted to the empty
set; every other read failure surfaces as an error. -/
theorem load_fails_soft_only_when_missing :
    ∀ st : StoreState, st.readFails = true →
      (load_notified_mrs st = Except.ok ∅ ↔ st = StoreState.missing) ∧
      (st ≠ StoreState.missing →
        ∃ e, load_notified_mrs st = Except.error e) := by
  intro st h
  cases st <;> simp_all [load_notified_mrs, StoreState.readFails]

/-- Witness for C4 at the corrupt-store input. -/
theorem load_fails_soft_witness :
    (load_notified_mrs StoreState.corrupt = Except.ok ∅ ↔
      StoreState.corrupt = StoreState.missing) ∧
    (StoreState.corrupt ≠ StoreState.missing →
      ∃ e, load_notified_mrs StoreState.corrupt = Except.error e) :=
  load_fails_soft_only_when_missing StoreState.corrupt rfl

/-- C9: the cleanup phase only ever removes identifiers: its result is
a subset of its input set, for every world and every input. -/
theorem clean_notified_mrs_subset (w : World) (S : Finset Nat) :
    clean_notified_mrs w S ⊆ S :=
  Finset.sdiff_subset

/-- C1: the cleanup phase returns exactly the notified set minus the
union of the closed, merged-among-notified and open-unready ids, and
every id of that union is absent from the result regardless of prior
membership. -/
theorem clean_removes_union :
    ∀ (w : World) (S : Finset Nat),
      clean_notified_mrs w S =
        S \ (get_closed_mrs w ∪ get_merged_mrs w S ∪
          get_mrs_without_ready_label w) ∧
      ∀ i, i ∈ get_closed_mrs w ∪ get_merged_mrs w S ∪
          get_mrs_without_ready_label w →
        i ∉ clean_notified_mrs w S := by
  intro w S
  refine ⟨?_, ?_⟩
  · simp only [clean_notified_mrs]
    congr 1
    rw [Finset.union_right_comm]
  · intro i hi hmem
    simp only [clean_notified_mrs, Finset.mem_sdiff, Finset.mem_union]
      at hmem
    simp only [Finset.mem_union] at hi
    tauto

/-- Witness for C1: id 42, reported closed, is removed from a notified
set that contained it. -/
theorem clean_removes_union_witness :
    (42 : Nat) ∉ clean_notified_mrs exWorldClosed {42} :=
  (clean_removes_union exWorldClosed {42}).2 42 (by decide)

/-- Counterexample to C6: on the first-run input — an empty notified
set, here in a world whose only MR 42 is merged — the empty `iids[]`
parameter is dropped and the unfiltered query returns the unrelated
merged MR, so an id outside the notified set contributes to the
merged-among-notified observation and it is not empty. -/
theorem merged_outside_notified_cex :
    (42 : Nat) ∈ get_merged_mrs exWorldMerged ∅ ∧
    get_merged_mrs exWorldMerged ∅ ≠ ∅ := by
  decide

/-- C6 amended: for every nonempty notified set the merged-among
observation is computed only over ids already in the notified set; with
an empty notified set the dropped `iids[]` filter lets unrelated merged
MRs into the observation, but cleanup is unaffected there, since
subtracting from the empty set yields the empty set. -/
theorem merged_only_over_nonempty_notified :
    ∀ (w : World) (S : Finset Nat), S ≠ ∅ →
      get_merged_mrs w S ⊆ S ∧ clean_notified_mrs w ∅ = ∅ := by
  intro w S hS
  refine ⟨?_, ?_⟩
  · intro i hi
    exact ((mem_get_merged_of_ne hS).mp hi).1
  · have hview : clean_notified_mrs w ∅ =
        ∅ \ (get_closed_mrs w ∪ get_mrs_without_ready_label w ∪
          get_merged_mrs w ∅) := rfl
    rw [hview]
    exact Finset.empty_sdiff _

/-- Witness for the amended C6: a nonempty notified set queried in the
merged-MR world. -/
theorem merged_only_over_nonempty_witness :
    get_merged_mrs exWorldMerged {1} ⊆ {1} ∧
    clean_notified_mrs exWorldMerged ∅ = ∅ :=
  merged_only_over_nonempty_notified exWorldMerged {1} (by decide)

/-- C10: if any of the Matrix username, password or room id is unset or
empty, `main` raises `ValueError` before the Matrix client setup, the
login, and the notified-set store load. -/
theorem missing_config_raises_first :
    ∀ cfg : Config,
      (truthy cfg.username = false ∨ truthy cfg.password = false ∨
        truthy cfg.room_id = false) →
      mainStart cfg = ([], some "Missing required environment variables") := by
  intro cfg h
  unfold mainStart
  rcases h with h | h | h <;> simp [h]

/-- Witness for C10: an unset username raises before any startup
action. -/
theorem missing_config_witness :
    mainStart ⟨none, some "alice", some "room"⟩ =
      ([], some "Missing required environment variables") :=
  missing_config_raises_first ⟨none, some "alice", some "room"⟩
    (Or.inl rfl)

/-- Appending a notification immediately followed by its save keeps a
trace immediately-saved. -/
theorem savedImmediately_append {evs : List Event} {i : Nat}
    {T : Finset Nat} (hP : SavedImmediately evs) (hi : i ∈ T) :
    SavedImmediately (evs ++ [Event.notify i, Event.save T]) := by
  intro k j hk
  rcases lt_trichotomy k evs.length with hlt | heq | hgt
  · rw [List.get?_append hlt] at hk
    obtain ⟨U, hU, hjU⟩ := hP k j hk
    have hk1 : k + 1 < evs.length := by
      by_contra hge
      push_neg at hge
      rw [List.get?_eq_none.mpr hge] at hU
      cases hU
    rw [List.get?_append hk1]
    exact ⟨U, hU, hjU⟩
  · rw [List.get?_append_right (le_of_eq heq.symm)] at hk
    have h0 : k - evs.length = 0 := by omega
    rw [h0] at hk
    simp only [List.get?] at hk
    have hji : j = i := by
      injection hk with hk2
      injection hk2 with hk3
      exact hk3.symm
    refine ⟨T, ?_, by rw [hji]; exact hi⟩
    rw [List.get?_append_right (by omega)]
    have h1 : k + 1 - evs.length = 1 := by omega
    rw [h1]
    rfl
  · rw [List.get?_append_right (by omega)] at hk
    rcases Nat.lt_or_ge (k - evs.length) 2 with h | h
    · have h1 : k - evs.length = 1 := by omega
      rw [h1] at hk
      simp only [List.get?] at hk
      cases hk
    · rw [List.get?_eq_none.mpr (by simpa using h)] at hk
      cases hk

/-- A trace holding a single save is immediately-saved. -/
theorem savedImmediately_single_save (T : Finset Nat) :
    SavedImmediately [Event.save T] := by
  intro k i hk
  cases k with
  | zero => simp only [List.get?] at hk; cases hk
  | succ n => simp only [List.get?, List.get?_nil] at hk; cases hk

/-- When no notification-recording save fails, the notify loop keeps
its trace immediately-saved. -/
theorem savedImmediately_foldl (o : Oracle)
    (hsave : ∀ i, o.saveOk i = true) :
    ∀ (l : List MergeRequest) (st : NState),
      SavedImmediately st.events →
      SavedImmediately ((l.foldl (notifyStep o) st).events) := by
  intro l
  induction l with
  | nil => intro st h; exact h
  | cons mr rest ih =>
    intro st h
    simp only [List.foldl_cons]
    apply ih
    by_cases h1 : st.aborted = true
    · simpa [notifyStep, h1] using h
    · by_cases h2 : mr.iid ∈ st.mem
      · simpa [notifyStep, h1, h2] using h
      · by_cases h3 : o.sendOk mr.iid = false
        · simpa [notifyStep, h1, h2, h3] using h
        · have h4 := hsave mr.iid
          simp only [notifyStep, h1, h2, h3, h4, if_false, if_true,
            Bool.false_eq_true, if_neg, ite_true, ite_false]
          exact savedImmediately_append h (Finset.mem_insert_self _ _)

/-- C2: in an all-successful cycle, every delivered notification is
immediately followed in the trace by a store save whose contents
include the notified id, before the next snapshot is processed;
additions are never batched to the end of the cycle. -/
theorem notify_persisted_immediately :
    ∀ (w : World) (S d : Finset Nat) (k i : Nat),
      (runCycle w Oracle.allOk S d).events.get? k =
        some (Event.notify i) →
      ∃ T, (runCycle w Oracle.allOk S d).events.get? (k + 1) =
        some (Event.save T) ∧ i ∈ T := by
  intro w S d
  exact savedImmediately_foldl Oracle.allOk (fun _ => rfl) (ready_mrs w)
    ⟨clean_notified_mrs w S, clean_notified_mrs w S,
      [Event.save (clean_notified_mrs w S)], false⟩
    (savedImmediately_single_save _)

/-- Witness for C2: in the one-ready-MR world the notification of id 42
at trace position 1 is immediately followed by a save containing 42. -/
theorem notify_persisted_witness :
    ∃ T, (runCycle exWorldReady Oracle.allOk ∅ ∅).events.get? 2 =
      some (Event.save T) ∧ 42 ∈ T :=
  notify_persisted_immediately exWorldReady ∅ ∅ 1 42 (by decide)

/-- Counterexample to C3: starting from an empty notified set in a
world with one open-ready MR 42, when the save recording 42 fails the
in-memory set holds 42 while the durable store does not (the belief has
advanced past what was saved), and the next all-successful cycle sends
no notification for 42. -/
theorem save_failure_advances_memory_cex :
    (runCycle exWorldReady oracleFailSave42 ∅ ∅).mem = {42} ∧
    (runCycle exWorldReady oracleFailSave42 ∅ ∅).durable = ∅ ∧
    Event.notify 42 ∉
      (runCycle exWorldReady Oracle.allOk
        (runCycle exWorldReady oracleFailSave42 ∅ ∅).mem
        (runCycle exWorldReady oracleFailSave42 ∅ ∅).durable).events := by
  decide

/-- Fetching closed MRs from a single-open-ready world yields nothing. -/
theorem singleReadyWorld_closed (i : Nat) (t u : String) :
    get_closed_mrs (singleReadyWorld i t u) = ∅ := by
  simp [get_closed_mrs, singleReadyWorld]

/-- Fetching open-unready MRs from a single-open-ready world yields
nothing. -/
theorem singleReadyWorld_unready (i : Nat) (t u : String) :
    get_mrs_without_ready_label (singleReadyWorld i t u) = ∅ := by
  simp [get_mrs_without_ready_label, get_all_open_mrs, singleReadyWorld]

/-- Fetching merged MRs from a single-open-ready world yields nothing,
whatever set is queried: filtered or not, the world holds no merged
record. -/
theorem singleReadyWorld_merged (i : Nat) (t u : String) (T : Finset Nat) :
    get_merged_mrs (singleReadyWorld i t u) T = ∅ := by
  by_cases hT : T = ∅
  · subst hT
    ext j
    rw [get_merged_mrs_empty]
    simp only [singleReadyWorld, List.mem_singleton, Finset.not_mem_empty,
      iff_false]
    rintro ⟨mr, hmr, hst, -⟩
    rw [hmr] at hst
    cases hst
  · ext j
    rw [mem_get_merged_of_ne hT]
    simp only [singleReadyWorld, List.mem_singleton, Finset.not_mem_empty,
      iff_false]
    rintro ⟨-, mr, hmr, hst, -⟩
    rw [hmr] at hst
    cases hst

/-- Cleanup is the identity on every notified set in a
single-open-ready world. -/
theorem singleReadyWorld_clean (i : Nat) (t u : String) (T : Finset Nat) :
    clean_notified_mrs (singleReadyWorld i t u) T = T := by
  simp [clean_notified_mrs, singleReadyWorld_closed,
    singleReadyWorld_unready, singleReadyWorld_merged]

/-- The open-ready snapshots of a single-open-ready world are its one
record. -/
theorem singleReadyWorld_ready (i : Nat) (t u : String) :
    ready_mrs (singleReadyWorld i t u) =
      [⟨i, t, u, MrState.opened, [readyLabel]⟩] := by
  simp [ready_mrs, get_all_open_mrs, singleReadyWorld]

/-- C3 amended: when the store write recording a newly notified id
fails, the in-memory set keeps the addition — the loop's belief
advances past what was durably saved — the cycle reports failure, and
the next cycle (same world, every operation succeeding) delivers no
notification at all, in particular none for that id; only a restart
from the durable store would re-notify it. -/
theorem save_failure_keeps_memory (i : Nat) (t u : String)
    (S : Finset Nat) (h : i ∉ S) :
    (runCycle (singleReadyWorld i t u) (oracleFailSaveOf i) S S).mem =
      insert i S ∧
    (runCycle (singleReadyWorld i t u) (oracleFailSaveOf i) S S).durable
      = S ∧
    (runCycle (singleReadyWorld i t u) (oracleFailSaveOf i) S S).ok =
      false ∧
    (∀ j, Event.notify j ∉
      (runCycle (singleReadyWorld i t u) Oracle.allOk (insert i S)
        S).events) ∧
    (runCycle (singleReadyWorld i t u) Oracle.allOk (insert i S) S).mem
      = insert i S := by
  have hrun1 : runCycle (singleReadyWorld i t u) (oracleFailSaveOf i) S S
      = ⟨insert i S, S, [Event.save S, Event.notify i], false⟩ := by
    simp [runCycle, oracleFailSaveOf, singleReadyWorld_clean,
      singleReadyWorld_ready, notifyStep, h]
  have hrun2 : runCycle (singleReadyWorld i t u) Oracle.allOk
      (insert i S) S =
      ⟨insert i S, insert i S, [Event.save (insert i S)], true⟩ := by
    simp [runCycle, Oracle.allOk, singleReadyWorld_clean,
      singleReadyWorld_ready, notifyStep, Finset.mem_insert_self]
  refine ⟨by rw [hrun1], by rw [hrun1], by rw [hrun1], ?_, by rw [hrun2]⟩
  intro j
  rw [hrun2]
  simp

/-- Witness for the amended C3 at iid 7 and an empty notified set. -/
theorem save_failure_keeps_memory_witness :
    (runCycle (singleReadyWorld 7 "T" "U") (oracleFailSaveOf 7) ∅ ∅).mem
      = insert 7 ∅ ∧
    (runCycle (singleReadyWorld 7 "T" "U") (oracleFailSaveOf 7) ∅
      ∅).durable = ∅ ∧
    (runCycle (singleReadyWorld 7 "T" "U") (oracleFailSaveOf 7) ∅ ∅).ok
      = false ∧
    (∀ j, Event.notify j ∉
      (runCycle (singleReadyWorld 7 "T" "U") Oracle.allOk (insert 7 ∅)
        ∅).events) ∧
    (runCycle (singleReadyWorld 7 "T" "U") Oracle.allOk (insert 7 ∅)
      ∅).mem = insert 7 ∅ :=
  save_failure_keeps_memory 7 "T" "U" ∅ (by decide)

/-- Counterexample to C7: in a world whose only MR 42 is closed, with
the notified set holding 42, a cycle in which the open-MRs fetch raises
(after cleanup already saved) leaves the notified set — in memory and
as persisted — changed from before the cycle, even though a fetch
raised during the cycle. -/
theorem midcycle_failure_changes_set_cex :
    (runCycle exWorldClosed oracleFailOpenFetch {42} {42}).mem ≠ {42} ∧
    (runCycle exWorldClosed oracleFailOpenFetch {42} {42}).durable ≠
      {42} ∧
    (runCycle exWorldClosed oracleFailOpenFetch {42} {42}).ok = false
    := by
  decide

/-- C7 amended: if one of the three cleanup fetches raises — the
closed-MRs fetch of the spec's scenario among them — the notified set,
in memory and as persisted, is unchanged, no notification is sent, and
the cycle reports the caught failure; after any caught failure the loop
continues with the 60-second backoff instead of the normal interval
(failures after the cleanup save retain the partial progress already
persisted). -/
theorem cycle_failure_isolated :
    (∀ (w : World) (o : Oracle) (m0 d0 : Finset Nat),
      (o.fetchClosedOk = false ∨ o.fetchMergedOk = false ∨
        o.fetchUnreadyOk = false) →
      runCycle w o m0 d0 = ⟨m0, d0, [], false⟩) ∧
    (∀ (w : World) (o : Oracle) (m0 d0 : Finset Nat),
      (runCycle w o m0 d0).ok = false →
      (loopIter w o m0 d0).2 = 60) := by
  constructor
  · intro w o m0 d0 h
    unfold runCycle
    by_cases h1 : o.fetchClosedOk = false
    · simp [h1]
    · by_cases h2 : o.fetchMergedOk = false
      · simp [h1, h2]
      · by_cases h3 : o.fetchUnreadyOk = false
        · simp [h1, h2, h3]
        · tauto
  · intro w o m0 d0 h
    unfold loopIter
    simp [h]

/-- Witness for the amended C7: a failing closed-MRs fetch leaves the
sets untouched and the loop backs off 60 seconds. -/
theorem cycle_failure_isolated_witness :
    runCycle exWorldReady oracleFailClosedFetch {7} {8} =
      ⟨{7}, {8}, [], false⟩ ∧
    (loopIter exWorldReady oracleFailClosedFetch {7} {8}).2 = 60 :=
  ⟨cycle_failure_isolated.1 exWorldReady oracleFailClosedFetch {7} {8}
      (Or.inl rfl),
   cycle_failure_isolated.2 exWorldReady oracleFailClosedFetch {7} {8}
      (by decide)⟩

/-- The all-successful notify loop ends with the input set united with
the snapshot iids. -/
theorem foldl_allOk_mem :
    ∀ (l : List MergeRequest) (st : NState), st.aborted = false →
      ((l.foldl (notifyStep Oracle.allOk) st).mem =
        st.mem ∪ (l.map MergeRequest.iid).toFinset) := by
  intro l
  induction l with
  | nil => intro st h; simp
  | cons mr rest ih =>
    intro st h
    simp only [List.foldl_cons, List.map_cons, List.toFinset_cons]
    by_cases h2 : mr.iid ∈ st.mem
    · have hstep : notifyStep Oracle.allOk st mr = st := by
        simp [notifyStep, h, h2]
      rw [hstep, ih st h, Finset.union_insert,
        Finset.insert_eq_self.mpr (Finset.mem_union_left _ h2)]
    · have hstep : notifyStep Oracle.allOk st mr =
          ⟨insert mr.iid st.mem, insert mr.iid st.mem,
            st.events ++ [Event.notify mr.iid,
              Event.save (insert mr.iid st.mem)], false⟩ := by
        simp [notifyStep, h, h2, Oracle.allOk]
      rw [hstep, ih _ rfl]
      simp [Finset.insert_union, Finset.union_insert]

/-- The notify loop does nothing when every snapshot iid is already in
the in-memory set. -/
theorem foldl_allOk_noop :
    ∀ (l : List MergeRequest) (st : NState),
      (∀ mr ∈ l, mr.iid ∈ st.mem) →
      l.foldl (notifyStep Oracle.allOk) st = st := by
  intro l
  induction l with
  | nil => intro st _; rfl
  | cons mr rest ih =>
    intro st h
    have hstep : notifyStep Oracle.allOk st mr = st := by
      by_cases ha : st.aborted = true
      · simp [notifyStep, ha]
      · simp [notifyStep, ha, h mr (List.mem_cons_self mr rest)]
    simp only [List.foldl_cons, hstep]
    exact ih st fun m hm => h m (List.mem_cons_of_mem mr hm)

/-- When tracker iids are unique, the set an all-successful cycle ends
with is a fixed point of cleanup: nothing it holds is closed, merged or
open-unready. -/
theorem clean_union_ready_fixed (w : World) (S : Finset Nat)
    (h : (w.map MergeRequest.iid).Nodup) :
    clean_notified_mrs w (clean_notified_mrs w S ∪ readyIids w) =
      clean_notified_mrs w S ∪ readyIids w := by
  have hdisj : ∀ i ∈ clean_notified_mrs w S ∪ readyIids w,
      i ∉ get_closed_mrs w ∪ get_mrs_without_ready_label w ∪
        get_merged_mrs w (clean_notified_mrs w S ∪ readyIids w) := by
    intro i hi hbad
    have hne : clean_notified_mrs w S ∪ readyIids w ≠ ∅ :=
      Finset.ne_empty_of_mem hi
    rw [Finset.mem_union] at hi
    rw [Finset.mem_union, Finset.mem_union] at hbad
    rcases hi with hcl | hR
    · have hview : clean_notified_mrs w S =
          S \ (get_closed_mrs w ∪ get_mrs_without_ready_label w ∪
            get_merged_mrs w S) := rfl
      rw [hview, Finset.mem_sdiff] at hcl
      obtain ⟨hiS, hnot⟩ := hcl
      rcases hbad with hCU | hM
      · exact hnot (by
          rw [Finset.mem_union, Finset.mem_union]
          exact Or.inl hCU)
      · rw [mem_get_merged_of_ne hne] at hM
        exact hnot (by
          rw [Finset.mem_union]
          exact Or.inr
            ((mem_get_merged_of_ne (Finset.ne_empty_of_mem hiS)).mpr
              ⟨hiS, hM.2⟩))
    · rw [mem_readyIids] at hR
      obtain ⟨mr, hmrw, hopen, hlab, hiid⟩ := hR
      rcases hbad with (hC | hU) | hM
      · rw [mem_get_closed] at hC
        obtain ⟨mr2, hw2, hst2, hiid2⟩ := hC
        have heq : mr = mr2 :=
          List.inj_on_of_nodup_map h hmrw hw2 (by rw [hiid, hiid2])
        rw [← heq, hopen] at hst2
        cases hst2
      · rw [mem_get_unready] at hU
        obtain ⟨mr2, hw2, _, hnlab2, hiid2⟩ := hU
        have heq : mr = mr2 :=
          List.inj_on_of_nodup_map h hmrw hw2 (by rw [hiid, hiid2])
        rw [← heq] at hnlab2
        exact hnlab2 hlab
      · rw [mem_get_merged_of_ne hne] at hM
        obtain ⟨-, mr2, hw2, hst2, hiid2⟩ := hM
        have heq : mr = mr2 :=
          List.inj_on_of_nodup_map h hmrw hw2 (by rw [hiid, hiid2])
        rw [← heq, hopen] at hst2
        cases hst2
  have hview2 : clean_notified_mrs w
      (clean_notified_mrs w S ∪ readyIids w) =
      (clean_notified_mrs w S ∪ readyIids w) \
        (get_closed_mrs w ∪ get_mrs_without_ready_label w ∪
          get_merged_mrs w (clean_notified_mrs w S ∪ readyIids w)) :=
    rfl
  rw [hview2]
  ext i
  rw [Finset.mem_sdiff]
  exact ⟨fun hi => hi.1, fun hi => ⟨hi, hdisj i hi⟩⟩

/-- The in-memory set after an all-successful cycle: the cleaned input
united with the open-ready snapshot iids. -/
theorem runCycle_allOk_mem (w : World) (m d : Finset Nat) :
    (runCycle w Oracle.allOk m d).mem =
      clean_notified_mrs w m ∪ readyIids w := by
  have hrun : runCycle w Oracle.allOk m d =
      (fun fin : NState => (⟨fin.mem, fin.durable, fin.events,
          !fin.aborted⟩ : CycleResult))
        ((ready_mrs w).foldl (notifyStep Oracle.allOk)
          ⟨clean_notified_mrs w m, clean_notified_mrs w m,
            [Event.save (clean_notified_mrs w m)], false⟩) := rfl
  rw [hrun]
  exact foldl_allOk_mem (ready_mrs w) _ rfl

/-- C8: reconciliation is idempotent when tracker iids are unique:
running the all-successful cleanup-then-notify cycle a second time with
identical fetch results yields the same notified set as the first run
and delivers zero notifications. -/
theorem reconcile_idempotent (w : World) (S d : Finset Nat)
    (h : (w.map MergeRequest.iid).Nodup) :
    (runCycle w Oracle.allOk (runCycle w Oracle.allOk S d).mem
      (runCycle w Oracle.allOk S d).durable).mem =
      (runCycle w Oracle.allOk S d).mem ∧
    ∀ i, Event.notify i ∉
      (runCycle w Oracle.allOk (runCycle w Oracle.allOk S d).mem
        (runCycle w Oracle.allOk S d).durable).events := by
  have hmem1 := runCycle_allOk_mem w S d
  have hclean2 : clean_notified_mrs w (runCycle w Oracle.allOk S d).mem
      = (runCycle w Oracle.allOk S d).mem := by
    rw [hmem1]
    exact clean_union_ready_fixed w S h
  have hall : ∀ mr ∈ ready_mrs w,
      mr.iid ∈ (runCycle w Oracle.allOk S d).mem := by
    intro mr hmr
    rw [hmem1]
    exact Finset.mem_union_right _
      (List.mem_toFinset.mpr (List.mem_map_of_mem MergeRequest.iid hmr))
  have hrun2 : runCycle w Oracle.allOk (runCycle w Oracle.allOk S d).mem
      (runCycle w Oracle.allOk S d).durable =
      ⟨(runCycle w Oracle.allOk S d).mem,
        (runCycle w Oracle.allOk S d).mem,
        [Event.save (runCycle w Oracle.allOk S d).mem], true⟩ := by
    have hview : runCycle w Oracle.allOk
        (runCycle w Oracle.allOk S d).mem
        (runCycle w Oracle.allOk S d).durable =
        (fun fin : NState => (⟨fin.mem, fin.durable, fin.events,
            !fin.aborted⟩ : CycleResult))
          ((ready_mrs w).foldl (notifyStep Oracle.allOk)
            ⟨clean_notified_mrs w (runCycle w Oracle.allOk S d).mem,
              clean_notified_mrs w (runCycle w Oracle.allOk S d).mem,
              [Event.save (clean_notified_mrs w
                (runCycle w Oracle.allOk S d).mem)], false⟩) := rfl
    rw [hview, hclean2]
    rw [foldl_allOk_noop (ready_mrs w)
      ⟨(runCycle w Oracle.allOk S d).mem,
        (runCycle w Oracle.allOk S d).mem,
        [Event.save (runCycle w Oracle.allOk S d).mem], false⟩ hall]
    rfl
  refine ⟨by rw [hrun2], ?_⟩
  intro i
  rw [hrun2]
  simp

/-- Witness for C8 in the mixed world: one open-ready MR and one closed
MR, starting from a notified set holding the closed id and a stale
one. -/
theorem reconcile_idempotent_witness :
    (runCycle exWorldMixed Oracle.allOk
      (runCycle exWorldMixed Oracle.allOk {2, 3} ∅).mem
      (runCycle exWorldMixed Oracle.allOk {2, 3} ∅).durable).mem =
      (runCycle exWorldMixed Oracle.allOk {2, 3} ∅).mem ∧
    ∀ i, Event.notify i ∉
      (runCycle exWorldMixed Oracle.allOk
        (runCycle exWorldMixed Oracle.allOk {2, 3} ∅).mem
        (runCycle exWorldMixed Oracle.allOk {2, 3} ∅).durable).events :=
  reconcile_idempotent exWorldMixed {2, 3} ∅ (by decide)

end GitlabMatrixNotifier
